import Mathlib

/-!
Verification of the Walmart-Agent chat client and of the orchestration
behaviours its specification describes.

The state and handlers below are a shallow embedding of
`frontend/src/pages/ChatInterface.tsx`, `frontend/src/services/api.ts` and
`frontend/src/stores/authStore.ts`.  Components of the backend engine that are
not part of the sources (Task Decomposer, Tool Bridge, Capability Router) are
modelled from the specification and marked as such in their doc comments.
-/

namespace WalmartAgent

/-- Interface `ChatMessage` of `ChatInterface.tsx`: one turn of a conversation.
`metadata` is free-form in the source; we keep it as an optional opaque string. -/
structure ChatMessage where
  id : String
  role : String
  content : String
  timestamp : String
  agent_id : Option String := none
  agent_name : Option String := none
  metadata : Option String := none
deriving DecidableEq

/-- WebSocket ready states; `WebSocket.OPEN` is `opened` here. -/
inductive WsReadyState
  | connecting
  | opened
  | closing
  | closed
deriving DecidableEq

/-- The component state of `ChatInterface` that the send/receive handlers
read and write: `currentMessage`, `selectedAgent`, `currentConversationId`,
`messages`, `isTyping` and the WebSocket handle (`none` models `ws === null`). -/
structure SendState where
  currentMessage : String
  selectedAgent : Option String := none
  currentConversationId : Option String := none
  messages : List ChatMessage := []
  isTyping : Bool := false
  ws : Option WsReadyState := none
deriving DecidableEq

/-- Body of `POST /chat/message` and the `data` field of the WebSocket `chat`
frame, as built in `handleSendMessage`. -/
structure ChatRequest where
  message : String
  conversation_id : Option String
  preferred_agent_id : Option String
deriving DecidableEq

/-- The envelope `{ type: 'chat', data: ... }` sent over the WebSocket. -/
structure WsEnvelope where
  type : String
  data : ChatRequest
deriving DecidableEq

/-- The observable transport effect of one invocation of `handleSendMessage`. -/
inductive SendAction
  | noop
  | wsSend (env : WsEnvelope)
  | httpPost (url : String) (body : ChatRequest)
deriving DecidableEq

/-- JavaScript `String.prototype.trim`: strip leading and trailing
whitespace.  Spelled out over the character list so that it evaluates inside
the kernel. -/
def jsTrim (s : String) : String :=
  ((s.toList.dropWhile Char.isWhitespace).reverse.dropWhile
    Char.isWhitespace).reverse.asString

/-- The user message appended by `handleSendMessage`; `now` models
`Date.now().toString()` and `nowIso` models `new Date().toISOString()`. -/
def userMessageOf (now nowIso : String) (st : SendState) : ChatMessage :=
  { id := now, role := "user", content := jsTrim st.currentMessage, timestamp := nowIso }

/-- The request payload built in `handleSendMessage`: identical on the
WebSocket path and on the HTTP path. -/
def chatRequestOf (st : SendState) : ChatRequest :=
  { message := jsTrim st.currentMessage
    conversation_id := st.currentConversationId
    preferred_agent_id := st.selectedAgent }

/-- The WebSocket envelope `{ type: 'chat', data: ... }` built in
`handleSendMessage`. -/
def wsEnvelopeOf (st : SendState) : WsEnvelope :=
  { type := "chat", data := chatRequestOf st }

/-- `handleSendMessage` from `ChatInterface.tsx` (lines 169-202): early return
on blank input, append the user turn, set the typing flag, then send over the
WebSocket when it is open and over HTTP otherwise, and clear the input box. -/
def handleSendMessage (now nowIso : String) (st : SendState) : SendState × SendAction :=
  if jsTrim st.currentMessage = "" then (st, SendAction.noop)
  else
    ({ st with
        messages := st.messages ++ [userMessageOf now nowIso st]
        isTyping := true
        currentMessage := "" },
     if st.ws = some WsReadyState.opened then
       SendAction.wsSend (wsEnvelopeOf st)
     else
       SendAction.httpPost "/chat/message" (chatRequestOf st))

/-- Response of `POST /chat/message` as consumed by `sendMessageMutation.onSuccess`. -/
structure ChatResponse where
  id : String
  message : String
  conversation_id : String
  agent_id : Option String := none
  agent_name : Option String := none
  timestamp : String
  metadata : Option String := none
deriving DecidableEq

/-- The assistant message that `onSuccess` builds from the HTTP response. -/
def assistantMessageOf (resp : ChatResponse) : ChatMessage :=
  { id := resp.id, role := "assistant", content := resp.message,
    timestamp := resp.timestamp, agent_id := resp.agent_id,
    agent_name := resp.agent_name, metadata := resp.metadata }

/-- `sendMessageMutation.onSuccess` (lines 92-109): append the assistant
message, record the conversation id, clear the typing flag. -/
def onSuccess (resp : ChatResponse) (st : SendState) : SendState :=
  { st with
      messages := st.messages ++ [assistantMessageOf resp]
      currentConversationId := some resp.conversation_id
      isTyping := false }

/-- `sendMessageMutation.onError` (lines 110-114): show an error toast and
clear the typing flag; the message list is left untouched. -/
def onError (st : SendState) : SendState :=
  { st with isTyping := false }

/-- The toast text produced by `onError`. -/
def onErrorToast (errText : String) : String :=
  "发送消息失败: " ++ errText

/-- JavaScript `a || b` on an optional string: the fallback is used when the
value is absent or empty (falsy). -/
def jsOr : Option String → String → String
  | some s, d => if s = "" then d else s
  | none, d => d

/-- A parsed WebSocket event as read by `websocket.onmessage`: `type` and
`timestamp` at the top level, the rest from the nested `data` object. -/
structure WsIncoming where
  type : String
  timestamp : String
  message_id : Option String := none
  message : String := ""
  agent_id : Option String := none
  agent_name : Option String := none
  metadata : Option String := none
  status : Option String := none
deriving DecidableEq

/-- The assistant message built by `websocket.onmessage` for a `message`
event; `nowFb` models the `Date.now().toString()` fallback id. -/
def wsMessageOf (nowFb : String) (ev : WsIncoming) : ChatMessage :=
  { id := jsOr ev.message_id nowFb, role := "assistant", content := ev.message,
    timestamp := ev.timestamp, agent_id := ev.agent_id,
    agent_name := ev.agent_name, metadata := ev.metadata }

/-- `websocket.onmessage` (lines 127-146): append the delivered assistant
message on a `message` event, set the typing flag on a processing `status`
event, ignore anything else. -/
def websocketOnMessage (nowFb : String) (ev : WsIncoming) (st : SendState) : SendState :=
  if ev.type = "message" then
    { st with messages := st.messages ++ [wsMessageOf nowFb ev], isTyping := false }
  else if ev.type = "status" ∧ ev.status = some "processing" then
    { st with isTyping := true }
  else st

/-- The `disabled` attribute of the send button:
`!currentMessage.trim() || isTyping`. -/
def sendButtonDisabled (st : SendState) : Bool :=
  jsTrim st.currentMessage == "" || st.isTyping

/-!
The streaming response parser of `ApiService.stream`
(`frontend/src/services/api.ts`, lines 183-246).  Text is modelled as lists of
characters; the `TextDecoder` with `stream: true` makes the byte-level chunk
boundaries invisible, so character chunks are the faithful granularity.
-/

/-- Characters of a piece of decoded text. -/
abbrev Chars := List Char

/-- The characters of the line marker `data: `. -/
def dataMarker : Chars := "data: ".toList

/-- The characters of the terminal payload `[DONE]`. -/
def doneMarker : Chars := "[DONE]".toList

/-- `line.startsWith('data: ')`. -/
def isDataLine (l : Chars) : Bool := l.take 6 == dataMarker

/-- `line.slice(6)`: the payload of a data line. -/
def linePayload (l : Chars) : Chars := l.drop 6

/-- A data line whose payload is the terminal marker. -/
def isDoneLine (l : Chars) : Bool := isDataLine l && linePayload l == doneMarker

/-- `JSON.parse(data)` followed by `parsed.content || data`: the abstract
`parse` returns the content field when the payload parses to an object with a
truthy `content`, and `none` otherwise, in which case the raw payload is
delivered. -/
def emitVal (parse : Chars → Option Chars) (d : Chars) : Chars :=
  (parse d).getD d

/-- `buffer.split('\n')` followed by `buffer = lines.pop() || ''`: the
complete lines of a text, paired with the trailing remainder kept in the
buffer for the next read. -/
def splitLines : Chars → List Chars × Chars
  | [] => ([], [])
  | c :: cs =>
    if c = '\n' then ([] :: (splitLines cs).1, (splitLines cs).2)
    else
      match (splitLines cs).1 with
      | [] => ([], c :: (splitLines cs).2)
      | l :: ls => ((c :: l) :: ls, (splitLines cs).2)

/-- The inner `for (const line of lines)` loop of `ApiService.stream`: emit
the payload of each data line in order, and stop at the first `[DONE]`
payload (the promise resolves and the function returns).  The boolean records
whether the terminal marker was reached. -/
def processLines (parse : Chars → Option Chars) : List Chars → List Chars × Bool
  | [] => ([], false)
  | l :: ls =>
    if isDataLine l then
      if linePayload l == doneMarker then ([], true)
      else
        (emitVal parse (linePayload l) :: (processLines parse ls).1,
         (processLines parse ls).2)
    else processLines parse ls

/-- The `while (true)` read loop of `ApiService.stream`: each read appends the
decoded chunk to the buffer, splits off the complete lines, processes them,
and stops as soon as the terminal marker is seen; the trailing partial line
stays in the buffer for the next read. -/
def processChunks (parse : Chars → Option Chars) (buf : Chars) :
    List Chars → List Chars × Bool
  | [] => ([], false)
  | c :: cs =>
    if (processLines parse (splitLines (buf ++ c)).1).2 then
      ((processLines parse (splitLines (buf ++ c)).1).1, true)
    else
      ((processLines parse (splitLines (buf ++ c)).1).1 ++
         (processChunks parse (splitLines (buf ++ c)).2 cs).1,
       (processChunks parse (splitLines (buf ++ c)).2 cs).2)

/-- A whole run of `ApiService.stream` over the successive chunks returned by
`reader.read()`: the ordered `onMessage` arguments and whether `[DONE]` was
seen. -/
def streamRun (parse : Chars → Option Chars) (chunks : List Chars) :
    List Chars × Bool :=
  processChunks parse [] chunks

/-- Reference semantics on the concatenated stream: process the complete
lines of the whole text at once. -/
def processWhole (parse : Chars → Option Chars) (s : Chars) : List Chars × Bool :=
  processLines parse (splitLines s).1

/-!
The auth store (`frontend/src/stores/authStore.ts`) and the 401 branch of the
response interceptor of `ApiService` (`frontend/src/services/api.ts`,
lines 50-93).
-/

/-- The `User` record of the auth store. -/
structure User where
  id : String
  username : String
  email : String
  fullName : String
  role : String
  department : Option String := none
  isActive : Bool
  isSuperuser : Bool
deriving DecidableEq

/-- `AuthState` of the auth store. -/
structure AuthState where
  user : Option User
  token : Option String
  refreshToken : Option String
  isAuthenticated : Bool
  isLoading : Bool
deriving DecidableEq

/-- `initialState` of the auth store. -/
def authInitialState : AuthState :=
  { user := none, token := none, refreshToken := none,
    isAuthenticated := false, isLoading := false }

/-- Browser-side state touched by logout: the auth store, the persisted
`localStorage` entries, and `window.location.href`. -/
structure ClientState where
  auth : AuthState
  localStorage : List (String × String)
  location : String
deriving DecidableEq

/-- `logout` of the auth store (lines 759-765 of the combined sources): reset
the state to `initialState` and remove the persisted `auth-storage` entry. -/
def logout (cl : ClientState) : ClientState :=
  { cl with
      auth := authInitialState
      localStorage := cl.localStorage.filter fun kv => kv.1 != "auth-storage" }

/-- The error branch of the response interceptor of `ApiService`: for each
HTTP status it shows a toast, and on 401 it additionally logs out and
redirects to the login page.  The returned string is the toast text. -/
def respInterceptorError (cl : ClientState) (status : Nat) : ClientState × String :=
  if status = 401 then
    ({ logout cl with location := "/login" }, "登录已过期，请重新登录")
  else if status = 403 then (cl, "权限不足，无法访问该资源")
  else if status = 404 then (cl, "请求的资源不存在")
  else if status = 429 then (cl, "请求过于频繁，请稍后重试")
  else if status = 500 then (cl, "服务器内部错误，请稍后重试")
  else if status = 502 ∨ status = 503 ∨ status = 504 then
    (cl, "服务暂时不可用，请稍后重试")
  else (cl, "请求失败，请稍后重试")

/-!
Agents and routing.  The `Agent` interface and the agent picker come from
`ChatInterface.tsx`; the backend Capability Matcher / Router is not part of
the sources, so it is modelled from the specification.
-/

/-- Interface `Agent` of `ChatInterface.tsx`. -/
structure Agent where
  id : String
  name : String
  description : String
  is_active : Bool
deriving DecidableEq

/-- The `disabled` attribute of an agent `Option` in the picker:
`disabled={!agent.is_active}`. -/
def agentOptionDisabled (a : Agent) : Bool := !a.is_active

/-- The preferred-agent id carried by a send action, if any. -/
def sentPreferredAgent : SendAction → Option (Option String)
  | SendAction.noop => none
  | SendAction.wsSend env => some env.data.preferred_agent_id
  | SendAction.httpPost _ body => some body.preferred_agent_id

/-- `b` beats the current best `a` in the scoring order of spec section 4.2:
strictly higher score, or equal score and strictly lower load (ties beyond
that keep the earlier-registered agent). -/
def beats (score : Agent → Int) (load : Agent → Nat) (a b : Agent) : Bool :=
  score b > score a || (score b == score a && load b < load a)

/-- Highest-scoring agent of a list, ties broken by lowest load then by
earliest position (registration order). -/
def pickBest (score : Agent → Int) (load : Agent → Nat) :
    List Agent → Option Agent
  | [] => none
  | a :: rest =>
    match pickBest score load rest with
    | none => some a
    | some b => if beats score load a b then some b else some a

/-- Modelled from the spec: the backend Capability Matcher / Router (spec
section 4.2) is not among the sources; only the UI and the API client are.
Per the spec, if a preferred agent id is given and that agent is active it is
selected unconditionally; otherwise every active agent is scored and the
highest-scoring one wins, ties broken by lowest current load then earliest
registration; with no active agent the result is empty (`NoEligibleAgent`). -/
def routeRequest (agents : List Agent) (preferred : Option String)
    (score : Agent → Int) (load : Agent → Nat) : Option Agent :=
  let active := agents.filter fun a => a.is_active
  match preferred.bind (fun pid => active.find? fun a => a.id == pid) with
  | some a => some a
  | none => pickBest score load active

/-!
Task decomposition.  The backend Task Decomposer is not part of the sources;
it is modelled from spec sections 4.3 and 9 (an arena of task records with an
explicit ready set recomputed on each completion).
-/

/-- One task of a decomposition: an id and the ids it depends on. -/
structure TaskSpec where
  id : Nat
  deps : List Nat
deriving DecidableEq

/-- Result of decomposition: a dependency-respecting execution order, or a
rejection of the graph. -/
inductive DecompResult
  | ok (order : List Nat)
  | invalidDecomposition
deriving DecidableEq

/-- A task all of whose dependencies have completed. -/
def taskReady (done : List Nat) (t : TaskSpec) : Bool :=
  t.deps.all fun d => done.contains d

/-- Kahn-style elimination: repeatedly move every ready task from the
remaining set to the completed list; fail when no task is ready and some
remain.  The fuel bounds the number of rounds, so the function always
terminates (no deadlock). -/
def topoAux : Nat → List TaskSpec → List Nat → Option (List Nat)
  | 0, rem, done => if rem.isEmpty then some done else none
  | fuel + 1, rem, done =>
    if rem.isEmpty then some done
    else
      if (rem.filter (taskReady done)).isEmpty then none
      else
        topoAux fuel (rem.filter fun t => !(taskReady done t))
          (done ++ (rem.filter (taskReady done)).map fun t => t.id)

/-- Modelled from the spec: the backend Task Decomposer (spec section 4.3) is
not among the sources.  Per the spec, a cyclic or malformed task graph is
rejected with `InvalidDecomposition` before any task executes; duplicate task
ids make the graph malformed.  A well-formed acyclic graph yields a
dependency-respecting order. -/
def decompose (g : List TaskSpec) : DecompResult :=
  if (g.map fun t => t.id).Nodup then
    match topoAux g.length g [] with
    | some order => DecompResult.ok order
    | none => DecompResult.invalidDecomposition
  else DecompResult.invalidDecomposition

/-- The cyclic successor of position `i` in a cycle `c`. -/
def cnext (c : List Nat) (i : Fin c.length) : Nat :=
  c.get ⟨(i.1 + 1) % c.length, Nat.mod_lt _ i.pos⟩

/-- The graph `g` contains a dependency cycle: a nonempty list of ids such
that each one names a task of `g` depending on the next id around the cycle. -/
def HasCycle (g : List TaskSpec) : Prop :=
  ∃ c : List Nat, c ≠ [] ∧
    ∀ i : Fin c.length, ∃ t ∈ g, t.id = c.get i ∧ cnext c i ∈ t.deps

/-- Invariant of the elimination rounds in the presence of a cycle `c`: the
remaining tasks come from the graph, no cycle id has completed, and every
cycle position still has its witness task among the remaining ones. -/
def CycleBlocked (g : List TaskSpec) (c : List Nat)
    (rem : List TaskSpec) (done : List Nat) : Prop :=
  (∀ t ∈ rem, t ∈ g) ∧
  (∀ x ∈ c, x ∉ done) ∧
  (∀ i : Fin c.length, ∃ t ∈ rem, t.id = c.get i ∧ cnext c i ∈ t.deps)

/-!
The tool bridge.  Not part of the sources; modelled from spec section 4.5.
-/

/-- Result of one `call-tool` invocation. -/
inductive ToolCallResult
  | success (payload : String)
  | toolTimeout
  | toolError (payload : String)
deriving DecidableEq

/-- What the provider would do for one call: how long it takes and either a
result payload or an error payload. -/
structure ProviderBehavior where
  duration : Nat
  outcome : Except String String

/-- Modelled from the spec: the Tool Bridge backend (spec section 4.5) is not
among the sources.  Per the spec, `call-tool` with a caller-supplied timeout
returns the provider result when it arrives within the timeout and
`ToolTimeout` otherwise, attaching the provider error payload on `ToolError`;
the bridge performs no retry itself, so exactly one dispatch is made per
call — the second component counts dispatches. -/
def callTool (timeout : Nat) (p : ProviderBehavior) : ToolCallResult × Nat :=
  if timeout < p.duration then (ToolCallResult.toolTimeout, 1)
  else
    match p.outcome with
    | Except.ok r => (ToolCallResult.success r, 1)
    | Except.error e => (ToolCallResult.toolError e, 1)

/-!
Claim theorems.
-/

/-- C1: every append operation on the conversation — the user turn placed by
`handleSendMessage`, the agent response appended by `onSuccess`, and an agent
message delivered by `websocket.onmessage` — either leaves the message list
unchanged (blank input, non-message event) or appends exactly one new message
at the end; the previously appended messages are never mutated, removed or
reordered, so read-back order equals append order. -/
theorem c1_messages_append_only (now nowIso nowFb : String) (st : SendState)
    (resp : ChatResponse) (ev : WsIncoming) :
    ((handleSendMessage now nowIso st).1.messages = st.messages ∨
      (handleSendMessage now nowIso st).1.messages
        = st.messages ++ [userMessageOf now nowIso st]) ∧
    (onSuccess resp st).messages = st.messages ++ [assistantMessageOf resp] ∧
    ((websocketOnMessage nowFb ev st).messages = st.messages ∨
      (websocketOnMessage nowFb ev st).messages
        = st.messages ++ [wsMessageOf nowFb ev]) := by
  refine ⟨?_, rfl, ?_⟩
  · by_cases h : jsTrim st.currentMessage = "" <;> simp [handleSendMessage, h]
  · by_cases h : ev.type = "message"
    · right
      simp [websocketOnMessage, h]
    · left
      by_cases h2 : ev.type = "status" ∧ ev.status = some "processing" <;>
        simp [websocketOnMessage, h, h2]

/-- C2: on a nonblank send, when the WebSocket is open the request is sent
over it inside a `chat` envelope and the action is not an HTTP request; when
no open connection exists the identical payload `chatRequestOf st` is sent as
one `POST /chat/message` request, whose single complete response is then
appended by `onSuccess`. -/
theorem c2_transport_selection (now nowIso : String) (st : SendState)
    (h : jsTrim st.currentMessage ≠ "") :
    (st.ws = some WsReadyState.opened →
      (handleSendMessage now nowIso st).2
        = SendAction.wsSend (wsEnvelopeOf st)) ∧
    (st.ws ≠ some WsReadyState.opened →
      (handleSendMessage now nowIso st).2
        = SendAction.httpPost "/chat/message" (chatRequestOf st)) := by
  constructor <;> intro hw <;> simp [handleSendMessage, h, hw]

/-- Witness for C2 at a concrete open-socket state and a concrete socketless
state. -/
theorem c2_transport_selection_witness :
    (handleSendMessage "7" "t"
        { currentMessage := " hi ", ws := some WsReadyState.opened }).2
      = SendAction.wsSend
          (wsEnvelopeOf { currentMessage := " hi ", ws := some WsReadyState.opened }) ∧
    (handleSendMessage "7" "t" { currentMessage := " hi " }).2
      = SendAction.httpPost "/chat/message"
          (chatRequestOf { currentMessage := " hi " }) :=
  ⟨(c2_transport_selection "7" "t"
      { currentMessage := " hi ", ws := some WsReadyState.opened } (by decide)).1 rfl,
   (c2_transport_selection "7" "t"
      { currentMessage := " hi " } (by decide)).2 (by decide)⟩

/-- C9: when the input is blank (empty or whitespace only), the send handler
is a no-op — the state, in particular the message list and the typing flag,
is unchanged and no transport action is produced — and the send button is
disabled. -/
theorem c9_blank_input_noop (now nowIso : String) (st : SendState)
    (h : jsTrim st.currentMessage = "") :
    handleSendMessage now nowIso st = (st, SendAction.noop) ∧
    sendButtonDisabled st = true := by
  constructor
  · simp [handleSendMessage, h]
  · simp [sendButtonDisabled, h]

/-- Witness for C9 on a whitespace-only input. -/
theorem c9_blank_input_noop_witness :
    handleSendMessage "7" "t" { currentMessage := "  " }
        = ({ currentMessage := "  " }, SendAction.noop) ∧
    sendButtonDisabled { currentMessage := "  " } = true :=
  c9_blank_input_noop "7" "t" { currentMessage := "  " } (by decide)

/-- C5 counterexample: after a failed HTTP send from a fresh state, the
conversation holds exactly the bare user turn; `onError` records no Message
with an error annotation — every message still has empty metadata and the
`user` role — contradicting the claim that the failed attempt is recorded as
an annotated Message. -/
theorem c5_counterexample :
    (onError (handleSendMessage "1" "t" { currentMessage := "hello" }).1).messages
      = [{ id := "1", role := "user", content := "hello", timestamp := "t" }] ∧
    ((onError (handleSendMessage "1" "t" { currentMessage := "hello" }).1).messages.all
      fun m => m.metadata == none && m.role == "user") = true := by
  constructor <;> decide

/-- C5 (amended): a failed send never drops the user turn — the error handler
leaves the message list untouched, so the user message appended before the
send is still there — and it clears the typing flag; but the failure is only
surfaced as an error toast, not recorded as an additional Message with an
error annotation. -/
theorem c5_user_turn_retained (now nowIso : String) (st : SendState)
    (h : jsTrim st.currentMessage ≠ "") :
    (onError (handleSendMessage now nowIso st).1).messages
      = st.messages ++ [userMessageOf now nowIso st] ∧
    (onError (handleSendMessage now nowIso st).1).isTyping = false ∧
    (∀ st2 : SendState, (onError st2).messages = st2.messages) := by
  refine ⟨?_, ?_, fun st2 => rfl⟩ <;> simp [onError, handleSendMessage, h]

/-- Witness for the amended C5 at a concrete failed send. -/
theorem c5_user_turn_retained_witness :
    (onError (handleSendMessage "1" "t" { currentMessage := "hello" }).1).messages
      = [] ++ [userMessageOf "1" "t" { currentMessage := "hello" }] ∧
    (onError (handleSendMessage "1" "t" { currentMessage := "hello" }).1).isTyping = false ∧
    (∀ st2 : SendState, (onError st2).messages = st2.messages) :=
  c5_user_turn_retained "1" "t" { currentMessage := "hello" } (by decide)

/-- C7: a tool call whose duration exceeds the caller-supplied timeout
returns `ToolTimeout`, and the bridge dispatches the call exactly once — it
never retries on its own, for any call whatsoever. -/
theorem c7_tool_timeout_no_retry (timeout : Nat) (p : ProviderBehavior)
    (h : timeout < p.duration) :
    callTool timeout p = (ToolCallResult.toolTimeout, 1) ∧
    (∀ (t : Nat) (q : ProviderBehavior), (callTool t q).2 = 1) := by
  constructor
  · simp [callTool, h]
  · intro t q
    by_cases ht : t < q.duration
    · simp [callTool, ht]
    · cases hq : q.outcome <;> simp [callTool, ht, hq]

/-- Witness for C7: a 10-unit call against a 5-unit timeout times out after a
single dispatch. -/
theorem c7_tool_timeout_no_retry_witness :
    callTool 5 ⟨10, Except.ok "r"⟩ = (ToolCallResult.toolTimeout, 1) ∧
    (callTool 3 ⟨2, Except.ok "r"⟩).2 = 1 :=
  ⟨(c7_tool_timeout_no_retry 5 ⟨10, Except.ok "r"⟩ (by decide)).1,
   (c7_tool_timeout_no_retry 5 ⟨10, Except.ok "r"⟩ (by decide)).2 3 ⟨2, Except.ok "r"⟩⟩

/-- Looking up a key in a list from which every pair with that key was
filtered out yields nothing. -/
theorem lookup_filter_ne (l : List (String × String)) (k : String) :
    ((l.filter fun kv => kv.1 != k).lookup k) = none := by
  induction l with
  | nil => rfl
  | cons kv rest ih =>
    obtain ⟨k1, v1⟩ := kv
    by_cases h : k1 = k
    · have hb : (k1 != k) = false := by simp [h]
      rw [List.filter_cons, hb]
      simpa using ih
    · have hb : (k1 != k) = true := by simp [h]
      have hk : (k == k1) = false := by simp [Ne.symm h]
      rw [List.filter_cons, hb]
      simp only [if_true, List.lookup, hk]
      exact ih

/-- C10: after `logout` the auth state is the initial one (`user`, `token`
and `refreshToken` empty, `isAuthenticated` false) and the persisted
`auth-storage` entry is gone; the 401 branch of the response interceptor does
the same and additionally redirects to the login page. -/
theorem c10_logout_clears_auth (cl : ClientState) :
    (logout cl).auth = authInitialState ∧
    ((logout cl).localStorage.lookup "auth-storage") = none ∧
    (respInterceptorError cl 401).1.auth = authInitialState ∧
    ((respInterceptorError cl 401).1.localStorage.lookup "auth-storage") = none ∧
    (respInterceptorError cl 401).1.location = "/login" := by
  refine ⟨rfl, lookup_filter_ne cl.localStorage "auth-storage", ?_, ?_, ?_⟩ <;>
    simp [respInterceptorError, logout, lookup_filter_ne]

/-- C4: when the request carries a preferred-agent id that names an active
agent, the router selects that agent whatever the scores and loads are; the
preference is forwarded unchanged as `preferred_agent_id` on both the
WebSocket and the HTTP send path; and the agent picker disables exactly the
inactive agents, so only active agents are offered. -/
theorem c4_preferred_agent_override (agents : List Agent) (pid : String)
    (a : Agent) (now nowIso : String) (st : SendState)
    (hfind : ((agents.filter fun x => x.is_active).find? fun x => x.id == pid) = some a)
    (hmsg : jsTrim st.currentMessage ≠ "") :
    (∀ (score : Agent → Int) (load : Agent → Nat),
        routeRequest agents (some pid) score load = some a) ∧
    a.is_active = true ∧
    sentPreferredAgent (handleSendMessage now nowIso st).2 = some st.selectedAgent ∧
    (∀ ag : Agent, agentOptionDisabled ag = false ↔ ag.is_active = true) := by
  refine ⟨?_, ?_, ?_, ?_⟩
  · intro score load
    simp [routeRequest, Option.bind, hfind]
  · exact (List.mem_filter.mp (List.mem_of_find?_eq_some hfind)).2
  · by_cases hws : st.ws = some WsReadyState.opened <;>
      simp [handleSendMessage, hmsg, hws, sentPreferredAgent, wsEnvelopeOf,
        chatRequestOf]
  · intro ag
    cases hag : ag.is_active <;> simp [agentOptionDisabled, hag]

/-- Witness for C4: a two-agent registry in which the lower-scoring active
agent is selected because it is preferred, and the preference travels in the
send payload. -/
theorem c4_preferred_agent_override_witness :
    routeRequest
        [{ id := "a1", name := "sales", description := "", is_active := true },
         { id := "a2", name := "inventory", description := "", is_active := true }]
        (some "a2") (fun ag => if ag.id = "a1" then 9 else 0) (fun _ => 0)
      = some { id := "a2", name := "inventory", description := "", is_active := true } ∧
    sentPreferredAgent
        (handleSendMessage "7" "t"
          { currentMessage := "hi", selectedAgent := some "a2" }).2
      = some (some "a2") :=
  ⟨(c4_preferred_agent_override
      [{ id := "a1", name := "sales", description := "", is_active := true },
       { id := "a2", name := "inventory", description := "", is_active := true }]
      "a2" { id := "a2", name := "inventory", description := "", is_active := true }
      "7" "t" { currentMessage := "hi", selectedAgent := some "a2" }
      (by decide) (by decide)).1 (fun ag => if ag.id = "a1" then 9 else 0) (fun _ => 0),
   (c4_preferred_agent_override
      [{ id := "a1", name := "sales", description := "", is_active := true },
       { id := "a2", name := "inventory", description := "", is_active := true }]
      "a2" { id := "a2", name := "inventory", description := "", is_active := true }
      "7" "t" { currentMessage := "hi", selectedAgent := some "a2" }
      (by decide) (by decide)).2.2.1⟩

/-- Splitting a concatenation: the complete lines of `s ++ t` are the
complete lines of `s` followed by the complete lines of the remainder of `s`
prepended to `t`, and the final remainder comes from that second split. -/
theorem splitLines_append (s t : Chars) :
    splitLines (s ++ t)
      = ((splitLines s).1 ++ (splitLines ((splitLines s).2 ++ t)).1,
         (splitLines ((splitLines s).2 ++ t)).2) := by
  induction s with
  | nil => simp [splitLines]
  | cons c cs ih =>
    by_cases hc : c = '\n'
    · subst hc
      simp [splitLines, ih]
    · rcases h1 : (splitLines cs).1 with _ | ⟨a, as⟩
      · rcases h2 : (splitLines ((splitLines cs).2 ++ t)).1 with _ | ⟨p, ps⟩
        · simp [splitLines, hc, ih, h1, h2]
        · simp [splitLines, hc, ih, h1, h2]
      · simp [splitLines, hc, ih, h1]

/-- The remainder kept in the buffer never contains a newline. -/
theorem splitLines_snd_no_nl (s : Chars) : '\n' ∉ (splitLines s).2 := by
  induction s with
  | nil => simp [splitLines]
  | cons c cs ih =>
    by_cases hc : c = '\n'
    · subst hc
      simpa [splitLines] using ih
    · rcases h1 : (splitLines cs).1 with _ | ⟨a, as⟩
      · simp only [splitLines, if_neg hc, h1]
        intro hmem
        rcases List.mem_cons.mp hmem with h | h
        · exact hc h.symm
        · exact ih h
      · simpa [splitLines, hc, h1] using ih

/-- A newline-free text splits into no complete line and itself as remainder. -/
theorem splitLines_of_no_nl (s : Chars) (h : '\n' ∉ s) : splitLines s = ([], s) := by
  induction s with
  | nil => rfl
  | cons c cs ih =>
    have hc : ¬ c = '\n' := fun hh => h (hh ▸ List.mem_cons_self c cs)
    have hcs : '\n' ∉ cs := fun hh => h (List.mem_cons_of_mem c hh)
    simp [splitLines, hc, ih hcs]

/-- Processing a concatenation of line lists: if the first part reaches the
terminal marker the second part is never touched; otherwise the outputs
concatenate. -/
theorem processLines_append (parse : Chars → Option Chars) (l1 l2 : List Chars) :
    processLines parse (l1 ++ l2)
      = if (processLines parse l1).2 then processLines parse l1
        else ((processLines parse l1).1 ++ (processLines parse l2).1,
              (processLines parse l2).2) := by
  induction l1 with
  | nil => simp [processLines]
  | cons l ls ih =>
    by_cases hd : isDataLine l
    · by_cases hdone : linePayload l == doneMarker
      · simp [processLines, hd, hdone]
      · by_cases hf : (processLines parse ls).2 <;>
          simp [processLines, hd, hdone, ih, hf]
    · by_cases hf : (processLines parse ls).2 <;>
        simp [processLines, hd, ih, hf]

/-- The chunked read loop computes exactly the single-pass semantics of the
concatenated stream, for any newline-free carried-over buffer. -/
theorem processChunks_eq_whole (parse : Chars → Option Chars) (cs : List Chars)
    (buf : Chars) (hb : '\n' ∉ buf) :
    processChunks parse buf cs = processWhole parse (buf ++ cs.flatten) := by
  induction cs generalizing buf with
  | nil =>
    simp [processChunks, processWhole, splitLines_of_no_nl buf hb, processLines]
  | cons c cs ih =>
    have hb2 : '\n' ∉ (splitLines (buf ++ c)).2 := splitLines_snd_no_nl (buf ++ c)
    have hjoin : buf ++ (c :: cs).flatten = (buf ++ c) ++ cs.flatten := by
      simp [List.flatten]
    have hsplit := splitLines_append (buf ++ c) cs.flatten
    by_cases hP : (processLines parse (splitLines (buf ++ c)).1).2 = true
    · simp only [processWhole, hjoin, hsplit]
      rw [processLines_append, if_pos hP]
      simp only [processChunks]
      rw [if_pos hP, ← hP]
    · simp only [processWhole, hjoin, hsplit]
      rw [processLines_append, if_neg hP]
      simp only [processChunks]
      rw [if_neg hP, ih (splitLines (buf ++ c)).2 hb2]
      simp only [processWhole]

/-- C8: the sequence of `onMessage` arguments depends only on the
concatenation of the received chunks, never on where the stream was cut:
incomplete trailing lines are buffered across reads, so any two chunkings of
the same character sequence produce the same callback sequence and the same
termination flag. -/
theorem c8_chunking_invariance (parse : Chars → Option Chars)
    (cs1 cs2 : List Chars) (h : cs1.flatten = cs2.flatten) :
    streamRun parse cs1 = streamRun parse cs2 := by
  rw [streamRun, streamRun,
    processChunks_eq_whole parse cs1 [] (by simp),
    processChunks_eq_whole parse cs2 [] (by simp),
    List.nil_append, List.nil_append, h]

/-- Witness for C8: two different chunkings of the same stream, one of which
cuts a line in half, deliver the same messages. -/
theorem c8_chunking_invariance_witness :
    streamRun (fun _ => none)
        ["data: a\nda".toList, "ta: b\ndata: [DONE]\n".toList]
      = streamRun (fun _ => none)
        ["data: a\ndata: b\ndata: [DONE]\n".toList] :=
  c8_chunking_invariance (fun _ => none)
    ["data: a\nda".toList, "ta: b\ndata: [DONE]\n".toList]
    ["data: a\ndata: b\ndata: [DONE]\n".toList] (by decide)

/-- The line loop delivers, in order, exactly the payloads of the data lines
strictly before the first terminal line, and reports whether a terminal line
occurs. -/
theorem processLines_spec (parse : Chars → Option Chars) (ls : List Chars) :
    processLines parse ls
      = (((ls.takeWhile fun l => !(isDoneLine l)).filter isDataLine).map
           (fun l => emitVal parse (linePayload l)),
         ls.any isDoneLine) := by
  induction ls with
  | nil => simp [processLines]
  | cons l ls ih =>
    by_cases hd : isDataLine l
    · by_cases hdone : linePayload l == doneMarker
      · have hdl : isDoneLine l = true := by simp [isDoneLine, hd, hdone]
        simp [processLines, hd, hdone, hdl]
      · have hdl : isDoneLine l = false := by simp [isDoneLine, hd, hdone]
        simp [processLines, hd, hdone, hdl, ih]
    · have hdl : isDoneLine l = false := by simp [isDoneLine, hd]
      simp [processLines, hd, hdl, ih]

/-- C3: for one streamed request, the content chunks are handed to the
`onMessage` callback in exactly stream order — they are the payloads of the
data lines of the concatenated stream, in order — and the terminal `[DONE]`
marker ends the run: no callback is ever invoked for a line at or after the
first terminal line, whatever chunks arrive later. -/
theorem c3_stream_order_terminal (parse : Chars → Option Chars)
    (chunks : List Chars) :
    streamRun parse chunks
      = (((((splitLines chunks.flatten).1.takeWhile
              fun l => !(isDoneLine l)).filter isDataLine).map
            (fun l => emitVal parse (linePayload l))),
         (splitLines chunks.flatten).1.any isDoneLine) := by
  rw [streamRun, processChunks_eq_whole parse chunks [] (by simp),
    List.nil_append, processWhole, processLines_spec]

/-- A task that depends on the cyclic successor of a still-blocked cycle
position is not ready. -/
theorem witness_not_ready (c done : List Nat)
    (hdone : ∀ x ∈ c, x ∉ done) (i : Fin c.length) (t : TaskSpec)
    (hdep : cnext c i ∈ t.deps) : taskReady done t = false := by
  by_contra hcon
  rw [Bool.not_eq_false] at hcon
  have hmem : cnext c i ∈ done := by
    have hall := List.all_eq_true.mp hcon (cnext c i) hdep
    simpa using hall
  have hcy : cnext c i ∈ c := by
    rw [cnext]
    exact c.get_mem _ _
  exact hdone _ hcy hmem

/-- One elimination round preserves the blocked-cycle invariant. -/
theorem cycleBlocked_step (g : List TaskSpec) (c : List Nat)
    (hnd : (g.map fun t => t.id).Nodup)
    (rem : List TaskSpec) (done : List Nat)
    (hinv : CycleBlocked g c rem done) :
    CycleBlocked g c (rem.filter fun t => !(taskReady done t))
      (done ++ (rem.filter (taskReady done)).map fun t => t.id) := by
  obtain ⟨hsub, hdone, hwit⟩ := hinv
  refine ⟨?_, ?_, ?_⟩
  · intro t ht
    exact hsub t (List.mem_of_mem_filter ht)
  · intro x hx
    rw [List.mem_append]
    rintro (hin | hin)
    · exact hdone x hx hin
    · obtain ⟨t2, ht2, hid2⟩ := List.mem_map.mp hin
      obtain ⟨ht2rem, ht2rdy⟩ := List.mem_filter.mp ht2
      obtain ⟨i, hi⟩ := List.mem_iff_get.mp hx
      obtain ⟨t, htrem, hid, hdep⟩ := hwit i
      have hteq : t2 = t := by
        refine List.inj_on_of_nodup_map hnd (hsub t2 ht2rem) (hsub t htrem) ?_
        rw [hid2, hid, hi]
      rw [hteq] at ht2rdy
      rw [witness_not_ready c done hdone i t hdep] at ht2rdy
      exact Bool.false_ne_true ht2rdy
  · intro i
    obtain ⟨t, htrem, hid, hdep⟩ := hwit i
    refine ⟨t, ?_, hid, hdep⟩
    refine List.mem_filter.mpr ⟨htrem, ?_⟩
    rw [witness_not_ready c done hdone i t hdep]
    rfl

/-- With a cycle blocked, the elimination loop can never empty the remaining
set, so it fails for every fuel value. -/
theorem topoAux_none_of_blocked (g : List TaskSpec) (c : List Nat)
    (hnd : (g.map fun t => t.id).Nodup) (hc : c ≠ []) (fuel : Nat) :
    ∀ rem done, CycleBlocked g c rem done → topoAux fuel rem done = none := by
  have hipos : 0 < c.length := List.length_pos.mpr hc
  induction fuel with
  | zero =>
    intro rem done hinv
    obtain ⟨t, htrem, -, -⟩ := hinv.2.2 ⟨0, hipos⟩
    cases rem with
    | nil => exact absurd htrem (List.not_mem_nil t)
    | cons hd tl => simp [topoAux]
  | succ fuel ih =>
    intro rem done hinv
    obtain ⟨t, htrem, -, -⟩ := hinv.2.2 ⟨0, hipos⟩
    have hne : rem.isEmpty = false := by
      cases rem with
      | nil => exact absurd htrem (List.not_mem_nil t)
      | cons hd tl => rfl
    by_cases hr : (rem.filter (taskReady done)).isEmpty
    · simp [topoAux, hne, hr]
    · rw [topoAux, hne]
      simp only [Bool.false_eq_true, if_false]
      rw [if_neg hr]
      exact ih _ _ (cycleBlocked_step g c hnd rem done hinv)

/-- C6: a task graph containing a dependency cycle is rejected by the
Decomposer with `InvalidDecomposition`: the elimination loop can never
complete, so no execution order is ever produced and no task of the graph
runs, and since the loop is fuel-bounded the rejection is reached without
deadlock. -/
theorem c6_cycle_invalid_decomposition (g : List TaskSpec) (hcyc : HasCycle g) :
    decompose g = DecompResult.invalidDecomposition := by
  obtain ⟨c, hc, hwit⟩ := hcyc
  by_cases hnd : (g.map fun t => t.id).Nodup
  · have h0 : CycleBlocked g c g [] :=
      ⟨fun t ht => ht, by simp, fun i => hwit i⟩
    rw [decompose, if_pos hnd,
      topoAux_none_of_blocked g c hnd hc g.length g [] h0]
  · rw [decompose, if_neg hnd]

/-- Witness for C6: the two-task graph in which each task depends on the
other is rejected. -/
theorem c6_cycle_invalid_decomposition_witness :
    decompose [⟨0, [1]⟩, ⟨1, [0]⟩] = DecompResult.invalidDecomposition :=
  c6_cycle_invalid_decomposition [⟨0, [1]⟩, ⟨1, [0]⟩] ⟨[0, 1], by decide⟩

end WalmartAgent
